import Mathlib

/-
A shallow embedding of `amazon/ionbenchmark/benchmark_runner.py`.

The module builds a zero-argument test function from a benchmark
specification (`_create_test_fun`), optionally traces the peak memory of a
single invocation (`_trace_memory_allocation`), and then times repeated
invocations with a warm-up, automatic batch-size calibration
(`timeit.Timer.autorange`) and a fixed number of timed repetitions
(`timeit.Timer.repeat`), returning a `BenchmarkResult`.

The embedding is trace-based: every observable side effect (toggling the
garbage collector, starting and stopping allocation tracing, opening and
closing files, invoking the loader/dumper, invoking the test function) is
recorded as an `Event`.  Fallible steps return `Except Err`.  An exception
truncates the trace at the point where it is raised, except that the
`with`-statements of the source guarantee the corresponding close events
even when the body raises.  Time is modelled by a per-invocation duration
`Env.d` in nanoseconds (the source timer is `time.perf_counter_ns`), so a
timed run of `n` invocations measures `n * Env.d` nanoseconds.  The
`autorange` loop of `timeit` is given explicit fuel because it does not
terminate when every measurement is zero.
-/

namespace BenchmarkRunner

/-- Errors that can escape the benchmark core.  `notSupported` carries the
unrecognized `[io_type, command, api]` combination, mirroring
`NotImplementedError(f"Argument combination not supported: {match_arg}")`.
`noProgress` is a model artifact: it is returned when the fuel of the
calibration loop runs out, which cannot happen when one invocation takes at
least one nanosecond. -/
inductive Err where
  | notSupported (combo : List String)
  | ioFailure
  | serializationFailure
  | noProgress
  deriving DecidableEq, Repr

/-- Observable side effects of the benchmark core. -/
inductive Event where
  | gcDisable
  | gcEnable
  | traceStart
  | traceStop
  | openFile (path : String)
  | closeFile
  | openTemp (binary : Bool)
  | closeTemp
  | loads (buf : List Nat)
  | dumps (obj : Nat)
  | loadStream (path : String)
  | dumpStream (obj : Nat)
  | invoke
  deriving DecidableEq, Repr

/-- The loader/dumper capability object returned by
`benchmark_spec.get_loader_dumper()`: whether each of its four operations
succeeds or raises on the given argument. -/
structure LoaderDumper where
  loadsResult : List Nat → Except Err Unit
  dumpsResult : Nat → Except Err Unit
  loadResult : String → Except Err Unit
  dumpResult : Nat → Except Err Unit

/-- The benchmark configuration consumed read-only through accessors
(`get_io_type`, `get_command`, `get_api`, `get_input_file`,
`get_data_object`, `get_format`, `get_warmups`, `get_iterations`,
`spec["py_gc_disabled"]`, `get_loader_dumper`). -/
structure BenchmarkSpec where
  io_type : String
  command : String
  api : String
  input_file : String
  data_object : Nat
  format : String
  warmups : Nat
  iterations : Nat
  py_gc_disabled : Bool
  loader_dumper : LoaderDumper

/-- The runtime environment: whether the interpreter is PyPy (no
`tracemalloc`), the file system contents, the two format predicates from
`amazon.ionbenchmark.Format`, the peak reading `tracemalloc` reports for one
invocation, and the duration `d` of one test-function invocation in
nanoseconds. -/
structure Env where
  pypy : Bool
  fs : String → Option (List Nat)
  format_is_binary : String → Bool
  format_is_ion : String → Bool
  peak : Nat
  d : Nat

/-- A constructed test function: the events one call produces (identical on
every call, since the source closures capture only immutable data) and
whether the call returns normally or raises.  When the call raises inside a
`with`-statement the close event is still in `events`, matching Python
`with` semantics. -/
structure TestFun where
  events : List Event
  result : Except Err Unit
  deriving Repr

/-- Result record of `run_benchmark`. -/
structure BenchmarkResult where
  timings : List Nat
  batch_size : Nat
  peak_memory_usage : Option Nat
  deriving DecidableEq, Repr

/-- `_create_test_fun(benchmark_spec)`: returns the construction-time event
trace together with either the test function or the exception raised at
construction. -/
def _create_test_fun (env : Env) (spec : BenchmarkSpec) :
    List Event × Except Err TestFun :=
  let loader_dumper := spec.loader_dumper
  let match_arg := [spec.io_type, spec.command, spec.api]
  if match_arg = ["buffer", "read", "load_dump"] then
    -- with open(input_file, 'rb') as f: buffer = f.read()
    match env.fs spec.input_file with
    | none => ([], .error .ioFailure)
    | some buffer =>
        ([.openFile spec.input_file, .closeFile],
          .ok ⟨[.loads buffer], loader_dumper.loadsResult buffer⟩)
  else if match_arg = ["buffer", "write", "load_dump"] then
    ([], .ok ⟨[.dumps spec.data_object],
      loader_dumper.dumpsResult spec.data_object⟩)
  else if match_arg = ["file", "read", "load_dump"] then
    -- the per-call `open(data_file, "rb")` raises when the file is absent
    match env.fs spec.input_file with
    | none => ([], .ok ⟨[], .error .ioFailure⟩)
    | some _ =>
        ([], .ok ⟨[.openFile spec.input_file, .loadStream spec.input_file,
            .closeFile], loader_dumper.loadResult spec.input_file⟩)
  else if match_arg = ["file", "write", "load_dump"] then
    if env.format_is_binary spec.format || env.format_is_ion spec.format then
      ([], .ok ⟨[.openTemp true, .dumpStream spec.data_object, .closeTemp],
        loader_dumper.dumpResult spec.data_object⟩)
    else
      ([], .ok ⟨[.openTemp false, .dumpStream spec.data_object, .closeTemp],
        loader_dumper.dumpResult spec.data_object⟩)
  else
    ([], .error (.notSupported match_arg))

/-- One call of the test function: the call itself (`invoke`) followed by the
events of its body. -/
def callEvents (tf : TestFun) : List Event := .invoke :: tf.events

/-- `_trace_memory_allocation(test_fn)`: gc.disable(); tracemalloc.start();
test_fn(); peak := tracemalloc.get_traced_memory()[1]; tracemalloc.stop();
gc.enable().  There is no try/finally, so when `test_fn()` raises none of
the remaining statements run. -/
def _trace_memory_allocation (env : Env) (tf : TestFun) :
    List Event × Except Err Nat :=
  match tf.result with
  | .error e => ([.gcDisable, .traceStart] ++ callEvents tf, .error e)
  | .ok _ =>
      ([.gcDisable, .traceStart] ++ callEvents tf ++ [.traceStop, .gcEnable],
        .ok env.peak)

/-- The memory-profiling step of `run_benchmark`: skipped on PyPy (yielding
`none`), otherwise `_trace_memory_allocation`. -/
def memory_phase (env : Env) (tf : TestFun) :
    List Event × Except Err (Option Nat) :=
  if env.pypy then ([], .ok none)
  else
    match _trace_memory_allocation env tf with
    | (evs, .error e) => (evs, .error e)
    | (evs, .ok peak) => (evs, .ok (some peak))

/-- The `timeit.Timer` built by `run_benchmark`: its setup statement (one gc
toggle, executed at the start of every timing run) and the statement (the
test function). -/
structure Timer where
  setupEvent : Event
  tf : TestFun

/-- `n` consecutive invocations of the test function, stopping at the first
raise. -/
def callN (tf : TestFun) : Nat → List Event × Except Err Unit
  | 0 => ([], .ok ())
  | n + 1 =>
      match tf.result with
      | .error e => (callEvents tf, .error e)
      | .ok _ =>
          match callN tf n with
          | (evs, r) => (callEvents tf ++ evs, r)

/-- `Timer.timeit(number)`: run the setup statement, then time `number`
consecutive invocations; with `timer=time.perf_counter_ns` the measurement
is `number * d` nanoseconds. -/
def timerTimeit (env : Env) (tm : Timer) (number : Nat) :
    List Event × Except Err Nat :=
  match callN tm.tf number with
  | (evs, .error e) => (tm.setupEvent :: evs, .error e)
  | (evs, .ok _) => (tm.setupEvent :: evs, .ok (number * env.d))

/-- The calibration threshold test of `Timer.autorange`:
`time_taken >= 0.2`, where `time_taken` is in the units of the configured
timer (here nanoseconds, as integers) and `0.2 = 1/5`. -/
def clears (t : Nat) : Bool := decide (Rat.divInt 1 5 ≤ (t : ℚ))

/-- The `i`-th batch size tried by `Timer.autorange`:
1, 2, 5, 10, 20, 50, 100, ... -/
def autorangeNumbers (i : Nat) : Nat :=
  10 ^ (i / 3) * (match i % 3 with | 0 => 1 | 1 => 2 | _ => 5)

/-- `Timer.autorange()`: try growing batch sizes until one timed run clears
the threshold; return that batch size and its measured time.  `fuel` bounds
the number of attempts (a model artifact; one attempt suffices when `d ≥ 1`). -/
def autorangeLoop (env : Env) (tm : Timer) :
    Nat → Nat → List Event × Except Err (Nat × Nat)
  | 0, _ => ([], .error .noProgress)
  | fuel + 1, i =>
      let number := autorangeNumbers i
      match timerTimeit env tm number with
      | (evs, .error e) => (evs, .error e)
      | (evs, .ok t) =>
          if clears t then (evs, .ok (number, t))
          else
            match autorangeLoop env tm fuel (i + 1) with
            | (evs2, r2) => (evs ++ evs2, r2)

/-- `Timer.repeat(repeat, number)`: `repeat` independent timed samples of
`number` invocations each. -/
def timerRepeat (env : Env) (tm : Timer) :
    Nat → Nat → List Event × Except Err (List Nat)
  | 0, _ => ([], .ok [])
  | n + 1, number =>
      match timerTimeit env tm number with
      | (evs, .error e) => (evs, .error e)
      | (evs, .ok t) =>
          match timerRepeat env tm n number with
          | (evs2, .error e) => (evs ++ evs2, .error e)
          | (evs2, .ok ts) => (evs ++ evs2, .ok (t :: ts))

/-- The gc toggle placed in the timer setup string:
`gc.disable()` when `py_gc_disabled`, else `gc.enable()`. -/
def benchSetupEvent (spec : BenchmarkSpec) : Event :=
  if spec.py_gc_disabled then .gcDisable else .gcEnable

/-- The timing phase of `run_benchmark`: warm-up (`timer.timeit(warmups)`),
calibration (`timer.autorange()`), timed repetitions
(`timer.repeat(iterations, batch_size)`). -/
def timing_phase (env : Env) (spec : BenchmarkSpec) (tf : TestFun)
    (fuel : Nat) : List Event × Except Err (Nat × List Nat) :=
  let tm : Timer := ⟨benchSetupEvent spec, tf⟩
  match timerTimeit env tm spec.warmups with
  | (wEvs, .error e) => (wEvs, .error e)
  | (wEvs, .ok _) =>
      match autorangeLoop env tm fuel 0 with
      | (aEvs, .error e) => (wEvs ++ aEvs, .error e)
      | (aEvs, .ok (batch_size, _)) =>
          match timerRepeat env tm spec.iterations batch_size with
          | (rEvs, .error e) => (wEvs ++ aEvs ++ rEvs, .error e)
          | (rEvs, .ok timings) =>
              (wEvs ++ aEvs ++ rEvs, .ok (batch_size, timings))

/-- `run_benchmark(benchmark_spec)`: build the test function, profile the
memory of one invocation (unless on PyPy), then run the timing phase and
assemble the `BenchmarkResult`. -/
def run_benchmark (env : Env) (spec : BenchmarkSpec) (fuel : Nat) :
    List Event × Except Err BenchmarkResult :=
  match _create_test_fun env spec with
  | (cEvs, .error e) => (cEvs, .error e)
  | (cEvs, .ok tf) =>
      match memory_phase env tf with
      | (mEvs, .error e) => (cEvs ++ mEvs, .error e)
      | (mEvs, .ok peak_memory_usage) =>
          match timing_phase env spec tf fuel with
          | (tEvs, .error e) => (cEvs ++ mEvs ++ tEvs, .error e)
          | (tEvs, .ok (batch_size, timings)) =>
              (cEvs ++ mEvs ++ tEvs,
                .ok ⟨timings, batch_size, peak_memory_usage⟩)

/-- The four supported `[io_type, command, api]` combinations. -/
def supportedCombos : List (List String) :=
  [["buffer", "read", "load_dump"], ["buffer", "write", "load_dump"],
    ["file", "read", "load_dump"], ["file", "write", "load_dump"]]

/-- Whether an event opens a file (named or temporary). -/
def isOpen : Event → Bool
  | .openFile _ => true
  | .openTemp _ => true
  | _ => false

/-- Events a selector-built test function may emit: everything except the
gc, tracing and invocation markers that only the measurement engine emits. -/
def benign : Event → Bool
  | .gcDisable => false
  | .gcEnable => false
  | .traceStart => false
  | .traceStop => false
  | .invoke => false
  | _ => true

/-- The gc-enabled state (`true` = enabled) observed at each test-function
invocation in a trace, starting from state `s`. -/
def gcAt (s : Bool) : List Event → List Bool
  | [] => []
  | .gcDisable :: rest => gcAt false rest
  | .gcEnable :: rest => gcAt true rest
  | .invoke :: rest => s :: gcAt s rest
  | _ :: rest => gcAt s rest

/-- Traces that never toggle the garbage collector. -/
def gcFree (l : List Event) : Prop :=
  ∀ e ∈ l, e ≠ Event.gcDisable ∧ e ≠ Event.gcEnable

/-- Over a gc-free trace the collector state never changes, so every
invocation sees the initial state. -/
theorem gcAt_all_of_gcFree (l : List Event) :
    gcFree l → ∀ s, ∀ b ∈ gcAt s l, b = s := by
  induction l with
  | nil =>
      intro h s b hb
      simp [gcAt] at hb
  | cons e rest ih =>
      intro h s b hb
      have hrest : gcFree rest := fun x hx => h x (List.mem_cons_of_mem e hx)
      have he := h e (List.mem_cons_self e rest)
      cases e
      case gcDisable => exact absurd rfl he.1
      case gcEnable => exact absurd rfl he.2
      case invoke =>
          simp only [gcAt] at hb
          rcases List.mem_cons.mp hb with rfl | hb2
          · rfl
          · exact ih hrest s b hb2
      all_goals simp only [gcAt] at hb
      all_goals exact ih hrest s b hb

/-- An invocation state observed in a concatenated trace is observed in the
first part, or in the second part from some intermediate state. -/
theorem gcAt_append_mem (l2 : List Event) : ∀ (l1 : List Event) (s b : Bool),
    b ∈ gcAt s (l1 ++ l2) → b ∈ gcAt s l1 ∨ ∃ s2, b ∈ gcAt s2 l2 := by
  intro l1
  induction l1 with
  | nil =>
      intro s b hb
      exact Or.inr ⟨s, by simpa [gcAt] using hb⟩
  | cons e rest ih =>
      intro s b hb
      cases e
      case gcDisable =>
          simp only [List.cons_append, gcAt] at hb ⊢
          exact ih false b hb
      case gcEnable =>
          simp only [List.cons_append, gcAt] at hb ⊢
          exact ih true b hb
      case invoke =>
          simp only [List.cons_append, gcAt] at hb ⊢
          rcases List.mem_cons.mp hb with rfl | hb2
          · exact Or.inl (List.mem_cons_self ..)
          · rcases ih s b hb2 with h1 | h2
            · exact Or.inl (List.mem_cons_of_mem _ h1)
            · exact Or.inr h2
      all_goals simp only [List.cons_append, gcAt] at hb ⊢
      all_goals exact ih s b hb

/-- An integer nanosecond count clears the `0.2` threshold exactly when it
is at least one. -/
theorem clears_of_one_le (t : Nat) (h : 1 ≤ t) : clears t = true := by
  unfold clears
  rw [decide_eq_true_iff]
  have h1 : (1 : ℚ) ≤ (t : ℚ) := by exact_mod_cast h
  rw [Rat.divInt_eq_div]
  push_cast
  linarith

/-- Every batch size tried by `autorange` is positive. -/
theorem autorangeNumbers_pos (i : Nat) : 1 ≤ autorangeNumbers i := by
  unfold autorangeNumbers
  refine Nat.one_le_iff_ne_zero.mpr (Nat.mul_ne_zero ?_ ?_)
  · exact Nat.pos_iff_ne_zero.mp (Nat.one_le_pow _ 10 (by norm_num))
  · cases hm : i % 3 with
    | zero => simp
    | succ m => cases m with
      | zero => simp
      | succ m => simp

/-- A successful `timeit` measures `number` invocations at `d` ns each. -/
theorem timerTimeit_ok_val (env : Env) (tm : Timer) (number : Nat)
    (evs : List Event) (t : Nat)
    (h : timerTimeit env tm number = (evs, .ok t)) : t = number * env.d := by
  unfold timerTimeit at h
  rcases hc : callN tm.tf number with ⟨evs1, r1⟩
  rw [hc] at h
  rcases r1 with e | u
  · simp at h
  · simp only [Prod.mk.injEq, Except.ok.injEq] at h
    exact h.2.symm

/-- A successful `repeat(n, number)` returns `n` samples, each measuring
`number` invocations at `d` ns each. -/
theorem timerRepeat_ok (env : Env) (tm : Timer) :
    ∀ n number evs ts, timerRepeat env tm n number = (evs, .ok ts) →
      ts.length = n ∧ ∀ t ∈ ts, t = number * env.d := by
  intro n
  induction n with
  | zero =>
      intro number evs ts h
      simp only [timerRepeat, Prod.mk.injEq, Except.ok.injEq] at h
      rcases h with ⟨-, h2⟩
      subst h2
      simp
  | succ n ih =>
      intro number evs ts h
      simp only [timerRepeat] at h
      rcases h1 : timerTimeit env tm number with ⟨evs1, r1⟩
      rw [h1] at h
      rcases r1 with e | t
      · simp at h
      · rcases h2 : timerRepeat env tm n number with ⟨evs2, r2⟩
        rw [h2] at h
        rcases r2 with e | ts2
        · simp at h
        · simp only [Prod.mk.injEq, Except.ok.injEq] at h
          rcases h with ⟨-, hts⟩
          subst hts
          obtain ⟨hlen, hmem⟩ := ih number evs2 ts2 h2
          refine ⟨by simp [hlen], ?_⟩
          intro x hx
          rcases List.mem_cons.mp hx with rfl | hx2
          · exact timerTimeit_ok_val env tm number evs1 x h1
          · exact hmem x hx2

/-- A successful `autorange` returns a positive batch size together with a
measurement of that many invocations which clears the threshold. -/
theorem autorangeLoop_ok (env : Env) (tm : Timer) :
    ∀ fuel i evs n t, autorangeLoop env tm fuel i = (evs, .ok (n, t)) →
      1 ≤ n ∧ t = n * env.d ∧ clears t = true := by
  intro fuel
  induction fuel with
  | zero =>
      intro i evs n t h
      simp [autorangeLoop] at h
  | succ fuel ih =>
      intro i evs n t h
      simp only [autorangeLoop] at h
      rcases h1 : timerTimeit env tm (autorangeNumbers i) with ⟨evs1, r1⟩
      rw [h1] at h
      rcases r1 with e | tt
      · simp at h
      · by_cases hcl : clears tt
        · simp only [hcl, if_true, Prod.mk.injEq, Except.ok.injEq] at h
          rcases h with ⟨-, hn, ht⟩
          subst hn
          subst ht
          exact ⟨autorangeNumbers_pos i,
            timerTimeit_ok_val env tm _ evs1 _ h1, hcl⟩
        · simp only [hcl, if_false, Bool.false_eq_true] at h
          rcases h2 : autorangeLoop env tm fuel (i + 1) with ⟨evs2, r2⟩
          rw [h2] at h
          simp only [Prod.mk.injEq] at h
          rcases h with ⟨-, hr⟩
          exact ih (i + 1) evs2 n t (by rw [h2, hr])

/-- Inversion of a successful `run_benchmark`: the three phases succeeded
and the result record is assembled from their outputs. -/
theorem run_benchmark_ok_inv (env : Env) (spec : BenchmarkSpec) (fuel : Nat)
    (evs : List Event) (res : BenchmarkResult)
    (h : run_benchmark env spec fuel = (evs, .ok res)) :
    ∃ cEvs tf mEvs peak tEvs b ts,
      _create_test_fun env spec = (cEvs, .ok tf) ∧
      memory_phase env tf = (mEvs, .ok peak) ∧
      timing_phase env spec tf fuel = (tEvs, .ok (b, ts)) ∧
      evs = cEvs ++ mEvs ++ tEvs ∧ res = ⟨ts, b, peak⟩ := by
  unfold run_benchmark at h
  rcases h1 : _create_test_fun env spec with ⟨cEvs, r1⟩
  rcases r1 with e | tf
  · simp [h1] at h
  · simp only [h1] at h
    rcases h2 : memory_phase env tf with ⟨mEvs, r2⟩
    rcases r2 with e | peak
    · simp [h2] at h
    · simp only [h2] at h
      rcases h3 : timing_phase env spec tf fuel with ⟨tEvs, r3⟩
      rcases r3 with e | bt
      · simp [h3] at h
      · rcases bt with ⟨b, ts⟩
        simp only [h3, Prod.mk.injEq, Except.ok.injEq] at h
        rcases h with ⟨hevs, hres⟩
        exact ⟨cEvs, tf, mEvs, peak, tEvs, b, ts, rfl, h2, h3,
          hevs.symm, hres.symm⟩

/-- Inversion of a successful timing phase: warm-up, calibration and the
timed repetitions all succeeded, in that order. -/
theorem timing_phase_ok_inv (env : Env) (spec : BenchmarkSpec) (tf : TestFun)
    (fuel : Nat) (tEvs : List Event) (b : Nat) (ts : List Nat)
    (h : timing_phase env spec tf fuel = (tEvs, .ok (b, ts))) :
    ∃ wEvs w aEvs t rEvs,
      timerTimeit env ⟨benchSetupEvent spec, tf⟩ spec.warmups
          = (wEvs, .ok w) ∧
      autorangeLoop env ⟨benchSetupEvent spec, tf⟩ fuel 0 = (aEvs, .ok (b, t)) ∧
      timerRepeat env ⟨benchSetupEvent spec, tf⟩ spec.iterations b
          = (rEvs, .ok ts) ∧
      tEvs = wEvs ++ aEvs ++ rEvs := by
  simp only [timing_phase] at h
  rcases h1 : timerTimeit env ⟨benchSetupEvent spec, tf⟩ spec.warmups
    with ⟨wEvs, r1⟩
  rcases r1 with e | w
  · simp [h1] at h
  · simp only [h1] at h
    rcases h2 : autorangeLoop env ⟨benchSetupEvent spec, tf⟩ fuel 0
      with ⟨aEvs, r2⟩
    rcases r2 with e | nt
    · simp [h2] at h
    · rcases nt with ⟨n, t⟩
      simp only [h2] at h
      rcases h3 : timerRepeat env ⟨benchSetupEvent spec, tf⟩ spec.iterations n
        with ⟨rEvs, r3⟩
      rcases r3 with e | ts2
      · simp [h3] at h
      · simp only [h3, Prod.mk.injEq, Except.ok.injEq] at h
        rcases h with ⟨hevs, hb, hts⟩
        subst hb
        subst hts
        exact ⟨wEvs, w, aEvs, t, rEvs, rfl, rfl, h3, hevs.symm⟩

/-- A benign event list is gc-free. -/
theorem gcFree_of_benign (l : List Event) (h : ∀ e ∈ l, benign e = true) :
    gcFree l := by
  intro e he
  have hb := h e he
  constructor
  · rintro rfl
    simp [benign] at hb
  · rintro rfl
    simp [benign] at hb

/-- A benign event list contains no invocation markers. -/
theorem invoke_notin_of_benign (l : List Event)
    (h : ∀ e ∈ l, benign e = true) : Event.invoke ∉ l := by
  intro hmem
  have hb := h _ hmem
  simp [benign] at hb

/-- Every event emitted by a test function built by the selector is benign:
the selector never toggles the collector, never touches tracing, and never
emits the engine's invocation marker. -/
theorem selector_events_benign (env : Env) (spec : BenchmarkSpec)
    (cEvs : List Event) (tf : TestFun)
    (h : _create_test_fun env spec = (cEvs, .ok tf)) :
    ∀ e ∈ tf.events, benign e = true := by
  simp only [_create_test_fun] at h
  by_cases h1 : [spec.io_type, spec.command, spec.api]
      = ["buffer", "read", "load_dump"]
  · rw [if_pos h1] at h
    rcases hf : env.fs spec.input_file with _ | buffer
    · simp [hf] at h
    · simp only [hf, Prod.mk.injEq, Except.ok.injEq] at h
      rcases h with ⟨-, h2⟩
      subst h2
      intro e he
      simp only [List.mem_singleton] at he
      subst he
      rfl
  · rw [if_neg h1] at h
    by_cases h2 : [spec.io_type, spec.command, spec.api]
        = ["buffer", "write", "load_dump"]
    · rw [if_pos h2] at h
      simp only [Prod.mk.injEq, Except.ok.injEq] at h
      rcases h with ⟨-, h3⟩
      subst h3
      intro e he
      simp only [List.mem_singleton] at he
      subst he
      rfl
    · rw [if_neg h2] at h
      by_cases h3 : [spec.io_type, spec.command, spec.api]
          = ["file", "read", "load_dump"]
      · rw [if_pos h3] at h
        rcases hf : env.fs spec.input_file with _ | buffer
        · simp only [hf, Prod.mk.injEq, Except.ok.injEq] at h
          rcases h with ⟨-, h4⟩
          subst h4
          intro e he
          simp at he
        · simp only [hf, Prod.mk.injEq, Except.ok.injEq] at h
          rcases h with ⟨-, h4⟩
          subst h4
          intro e he
          simp only [List.mem_cons, List.not_mem_nil, or_false] at he
          rcases he with rfl | rfl | rfl <;> rfl
      · rw [if_neg h3] at h
        by_cases h4 : [spec.io_type, spec.command, spec.api]
            = ["file", "write", "load_dump"]
        · rw [if_pos h4] at h
          by_cases h5 : env.format_is_binary spec.format
              || env.format_is_ion spec.format
          · rw [if_pos h5] at h
            simp only [Prod.mk.injEq, Except.ok.injEq] at h
            rcases h with ⟨-, h6⟩
            subst h6
            intro e he
            simp only [List.mem_cons, List.not_mem_nil, or_false] at he
            rcases he with rfl | rfl | rfl <;> rfl
          · rw [if_neg h5] at h
            simp only [Prod.mk.injEq, Except.ok.injEq] at h
            rcases h with ⟨-, h6⟩
            subst h6
            intro e he
            simp only [List.mem_cons, List.not_mem_nil, or_false] at he
            rcases he with rfl | rfl | rfl <;> rfl
        · rw [if_neg h4] at h
          simp at h

/-- The trace of `n` consecutive calls of a gc-free test function is
gc-free. -/
theorem callN_gcFree (tf : TestFun) (hfree : gcFree tf.events) :
    ∀ n, gcFree (callN tf n).1 := by
  intro n
  induction n with
  | zero =>
      intro e he
      simp [callN] at he
  | succ n ih =>
      intro e he
      simp only [callN] at he
      rcases hr : tf.result with er | u
      · simp only [hr] at he
        rcases List.mem_cons.mp he with rfl | he2
        · exact ⟨by simp, by simp⟩
        · exact hfree e he2
      · simp only [hr] at he
        rcases hc : callN tf n with ⟨evs, r⟩
        simp only [hc] at he
        rcases List.mem_append.mp he with he1 | he2
        · rcases List.mem_cons.mp he1 with rfl | he3
          · exact ⟨by simp, by simp⟩
          · exact hfree e he3
        · exact ih e (by rw [hc]; exact he2)

/-- The trace of one `timeit` run is the setup gc toggle followed by a
gc-free call trace. -/
theorem timerTimeit_fst (env : Env) (tm : Timer) (number : Nat) :
    (timerTimeit env tm number).1
      = tm.setupEvent :: (callN tm.tf number).1 := by
  unfold timerTimeit
  rcases callN tm.tf number with ⟨evs, r⟩
  rcases r with e | u <;> rfl

/-- During a `timeit` run whose setup statement sets the collector to
`target`, every invocation sees state `target`, whatever the entry state. -/
theorem timerTimeit_gcAt (env : Env) (tm : Timer) (target : Bool)
    (hsetup : tm.setupEvent = if target then Event.gcEnable else Event.gcDisable)
    (hfree : gcFree tm.tf.events) (number : Nat) :
    ∀ s b, b ∈ gcAt s (timerTimeit env tm number).1 → b = target := by
  intro s b hb
  rw [timerTimeit_fst, hsetup] at hb
  have hcall := callN_gcFree tm.tf hfree number
  cases target
  · have hred : (if (false : Bool) = true then Event.gcEnable else Event.gcDisable)
        = Event.gcDisable := rfl
    rw [hred] at hb
    simp only [gcAt] at hb
    exact gcAt_all_of_gcFree _ hcall false b hb
  · have hred : (if (true : Bool) = true then Event.gcEnable else Event.gcDisable)
        = Event.gcEnable := rfl
    rw [hred] at hb
    simp only [gcAt] at hb
    exact gcAt_all_of_gcFree _ hcall true b hb

/-- During calibration every invocation sees the configured collector
state. -/
theorem autorangeLoop_gcAt (env : Env) (tm : Timer) (target : Bool)
    (hsetup : tm.setupEvent = if target then Event.gcEnable else Event.gcDisable)
    (hfree : gcFree tm.tf.events) :
    ∀ fuel i s b, b ∈ gcAt s (autorangeLoop env tm fuel i).1 → b = target := by
  intro fuel
  induction fuel with
  | zero =>
      intro i s b hb
      simp [autorangeLoop, gcAt] at hb
  | succ fuel ih =>
      intro i s b hb
      simp only [autorangeLoop] at hb
      rcases h1 : timerTimeit env tm (autorangeNumbers i) with ⟨evs1, r1⟩
      simp only [h1] at hb
      rcases r1 with e | t
      · exact timerTimeit_gcAt env tm target hsetup hfree _ s b (by rw [h1]; exact hb)
      · by_cases hcl : clears t
        · simp only [hcl, if_true] at hb
          exact timerTimeit_gcAt env tm target hsetup hfree _ s b (by rw [h1]; exact hb)
        · simp only [hcl, if_false, Bool.false_eq_true] at hb
          rcases h2 : autorangeLoop env tm fuel (i + 1) with ⟨evs2, r2⟩
          simp only [h2] at hb
          rcases gcAt_append_mem evs2 evs1 s b hb with hb1 | ⟨s2, hb2⟩
          · exact timerTimeit_gcAt env tm target hsetup hfree _ s b
              (by rw [h1]; exact hb1)
          · exact ih (i + 1) s2 b (by rw [h2]; exact hb2)

/-- During the timed repetitions every invocation sees the configured
collector state. -/
theorem timerRepeat_gcAt (env : Env) (tm : Timer) (target : Bool)
    (hsetup : tm.setupEvent = if target then Event.gcEnable else Event.gcDisable)
    (hfree : gcFree tm.tf.events) :
    ∀ n number s b, b ∈ gcAt s (timerRepeat env tm n number).1 → b = target := by
  intro n
  induction n with
  | zero =>
      intro number s b hb
      simp [timerRepeat, gcAt] at hb
  | succ n ih =>
      intro number s b hb
      simp only [timerRepeat] at hb
      rcases h1 : timerTimeit env tm number with ⟨evs1, r1⟩
      simp only [h1] at hb
      rcases r1 with e | t
      · exact timerTimeit_gcAt env tm target hsetup hfree _ s b (by rw [h1]; exact hb)
      · rcases h2 : timerRepeat env tm n number with ⟨evs2, r2⟩
        simp only [h2] at hb
        have hsplit : b ∈ gcAt s evs1 ∨ ∃ s2, b ∈ gcAt s2 evs2 := by
          rcases r2 with e2 | ts2
          · exact gcAt_append_mem evs2 evs1 s b hb
          · exact gcAt_append_mem evs2 evs1 s b hb
        rcases hsplit with hb1 | ⟨s2, hb2⟩
        · exact timerTimeit_gcAt env tm target hsetup hfree _ s b
            (by rw [h1]; exact hb1)
        · exact ih number s2 b (by rw [h2]; exact hb2)

/-- `n` calls of a test function that returns normally all return
normally. -/
theorem callN_snd_ok (tf : TestFun) (hok : tf.result = .ok ()) :
    ∀ n, (callN tf n).2 = .ok () := by
  intro n
  induction n with
  | zero => rfl
  | succ n ih =>
      simp only [callN, hok]
      rcases hc : callN tf n with ⟨evs, r⟩
      rw [hc] at ih
      simpa using ih

/-- When the test function returns normally a `timeit` run succeeds and
measures `number * d` nanoseconds. -/
theorem timerTimeit_snd_ok (env : Env) (tm : Timer)
    (hok : tm.tf.result = .ok ()) (number : Nat) :
    (timerTimeit env tm number).2 = .ok (number * env.d) := by
  unfold timerTimeit
  rcases hc : callN tm.tf number with ⟨evs, r⟩
  have h2 := callN_snd_ok tm.tf hok number
  rw [hc] at h2
  simp only at h2
  subst h2
  rfl

/-- When the test function returns normally and one invocation takes at
least one nanosecond, `autorange` succeeds on its very first attempt. -/
theorem autorangeLoop_first (env : Env) (tm : Timer)
    (hok : tm.tf.result = .ok ()) (hd : 1 ≤ env.d) (fuel i : Nat) :
    autorangeLoop env tm (fuel + 1) i
      = ((timerTimeit env tm (autorangeNumbers i)).1,
          .ok (autorangeNumbers i, autorangeNumbers i * env.d)) := by
  simp only [autorangeLoop]
  rcases ht : timerTimeit env tm (autorangeNumbers i) with ⟨evs, r⟩
  have h2 := timerTimeit_snd_ok env tm hok (autorangeNumbers i)
  rw [ht] at h2
  simp only at h2
  subst h2
  have hcl : clears (autorangeNumbers i * env.d) = true :=
    clears_of_one_le _
      (Nat.one_le_iff_ne_zero.mpr (Nat.mul_ne_zero
        (Nat.one_le_iff_ne_zero.mp (autorangeNumbers_pos i))
        (Nat.one_le_iff_ne_zero.mp hd)))
  simp [hcl]

/-- When the test function returns normally, the memory-profiling step
returns `none` on PyPy and the traced peak otherwise. -/
theorem memory_phase_ok_fwd (env : Env) (tf : TestFun)
    (hok : tf.result = .ok ()) :
    (memory_phase env tf).2
      = .ok (if env.pypy then none else some env.peak) := by
  by_cases hp : env.pypy = true
  · simp [memory_phase, hp]
  · have hp2 : env.pypy = false := by simpa using hp
    simp [memory_phase, hp2, _trace_memory_allocation, hok]

/-- Inversion of a successful memory-profiling step: the reported peak is
`none` exactly on PyPy, and off PyPy the trace is the full five-step
sequence around one invocation. -/
theorem memory_phase_ok_inv (env : Env) (tf : TestFun) (mEvs : List Event)
    (peak : Option Nat) (h : memory_phase env tf = (mEvs, .ok peak)) :
    peak = (if env.pypy then none else some env.peak) ∧
    (env.pypy = false →
      mEvs = [Event.gcDisable, Event.traceStart] ++ callEvents tf
        ++ [Event.traceStop, Event.gcEnable]) := by
  unfold memory_phase at h
  by_cases hp : env.pypy = true
  · rw [if_pos hp] at h
    simp only [Prod.mk.injEq, Except.ok.injEq] at h
    constructor
    · rw [if_pos hp]
      exact h.2.symm
    · intro hf
      rw [hf] at hp
      cases hp
  · have hp2 : env.pypy = false := by simpa using hp
    rw [if_neg hp] at h
    unfold _trace_memory_allocation at h
    rcases hr : tf.result with e | u
    · simp [hr] at h
    · simp only [hr, Prod.mk.injEq, Except.ok.injEq] at h
      constructor
      · rw [if_neg hp]
        exact h.2.symm
      · intro hf
        exact h.1.symm

/-- A loader/dumper whose four operations always succeed. -/
def ld0 : LoaderDumper :=
  ⟨fun _ => .ok (), fun _ => .ok (), fun _ => .ok (), fun _ => .ok ()⟩

/-- A CPython-like environment: every file holds the bytes `[1, 2]`, no
format is binary or Ion, the traced peak is 7 bytes, one invocation takes
5 ns. -/
def env0 : Env :=
  ⟨false, fun _ => some [1, 2], fun _ => false, fun _ => false, 7, 5⟩

/-- A (buffer, write, load_dump) configuration: 2 warm-ups, 5 iterations,
collector left enabled. -/
def spec0 : BenchmarkSpec :=
  ⟨"buffer", "write", "load_dump", "in.ion", 3, "json", 2, 5, false, ld0⟩

/-- The test function the selector builds for `spec0`. -/
def tf0 : TestFun := ⟨[Event.dumps 3], .ok ()⟩

/-- The full event trace of `run_benchmark env0 spec0 1`. -/
def evs0 : List Event :=
  [Event.gcDisable, .traceStart, .invoke, .dumps 3, .traceStop, .gcEnable,
    .gcEnable, .invoke, .dumps 3, .invoke, .dumps 3,
    .gcEnable, .invoke, .dumps 3,
    .gcEnable, .invoke, .dumps 3,
    .gcEnable, .invoke, .dumps 3,
    .gcEnable, .invoke, .dumps 3,
    .gcEnable, .invoke, .dumps 3,
    .gcEnable, .invoke, .dumps 3]

/-- The result record of `run_benchmark env0 spec0 1`. -/
def res0 : BenchmarkResult := ⟨[5, 5, 5, 5, 5], 1, some 7⟩

/-- C1: for every configuration the selector accepts and every completed
run, the returned `timings` has exactly `iterations` samples, and each
sample measures `batch_size` consecutive invocations (at `d` ns per
invocation in the time model). -/
theorem timings_match_iterations (env : Env) (spec : BenchmarkSpec)
    (fuel : Nat) (evs : List Event) (res : BenchmarkResult)
    (h : run_benchmark env spec fuel = (evs, .ok res)) :
    res.timings.length = spec.iterations ∧
      ∀ t ∈ res.timings, t = res.batch_size * env.d := by
  obtain ⟨cEvs, tf, mEvs, peak, tEvs, b, ts, hc, hm, ht, hevs, hres⟩ :=
    run_benchmark_ok_inv env spec fuel evs res h
  obtain ⟨wEvs, w, aEvs, t, rEvs, hw, ha, hr, htEvs⟩ :=
    timing_phase_ok_inv env spec tf fuel tEvs b ts ht
  obtain ⟨hlen, hmem⟩ :=
    timerRepeat_ok env ⟨benchSetupEvent spec, tf⟩ spec.iterations b rEvs ts hr
  subst hres
  exact ⟨hlen, hmem⟩

/-- C1 witness: a concrete complete run with 5 iterations. -/
theorem timings_match_iterations_witness :
    (run_benchmark env0 spec0 1 = (evs0, .ok res0)) ∧
    res0.timings.length = spec0.iterations ∧
    (5 ∈ res0.timings → 5 = res0.batch_size * env0.d) :=
  ⟨rfl, (timings_match_iterations env0 spec0 1 evs0 res0 rfl).1,
    (timings_match_iterations env0 spec0 1 evs0 res0 rfl).2 5⟩

/-- C9: every completed run returns a batch size of at least 1, and the
calibration sample of `batch_size` consecutive invocations cleared the
threshold. -/
theorem batch_size_positive_and_calibrated (env : Env) (spec : BenchmarkSpec)
    (fuel : Nat) (evs : List Event) (res : BenchmarkResult)
    (h : run_benchmark env spec fuel = (evs, .ok res)) :
    1 ≤ res.batch_size ∧ clears (res.batch_size * env.d) = true := by
  obtain ⟨cEvs, tf, mEvs, peak, tEvs, b, ts, hc, hm, ht, hevs, hres⟩ :=
    run_benchmark_ok_inv env spec fuel evs res h
  obtain ⟨wEvs, w, aEvs, t, rEvs, hw, ha, hr, htEvs⟩ :=
    timing_phase_ok_inv env spec tf fuel tEvs b ts ht
  obtain ⟨hpos, htval, hclear⟩ :=
    autorangeLoop_ok env ⟨benchSetupEvent spec, tf⟩ fuel 0 aEvs b t ha
  subst hres
  refine ⟨hpos, ?_⟩
  rw [← htval]
  exact hclear

/-- C9 witness: the concrete run calibrates batch size 1 and its sample
clears the threshold. -/
theorem batch_size_positive_and_calibrated_witness :
    (run_benchmark env0 spec0 1 = (evs0, .ok res0)) ∧
    1 ≤ res0.batch_size ∧ clears (res0.batch_size * env0.d) = true :=
  ⟨rfl, batch_size_positive_and_calibrated env0 spec0 1 evs0 res0 rfl⟩

/-- C2: any `[io_type, command, api]` combination outside the four
supported ones makes construction fail with `notSupported` carrying that
combination, and `run_benchmark` fails identically with an empty trace —
no memory profiling or timing occurred. -/
theorem unsupported_combination_fails (env : Env) (spec : BenchmarkSpec)
    (fuel : Nat)
    (h : [spec.io_type, spec.command, spec.api] ∉ supportedCombos) :
    _create_test_fun env spec
        = ([], .error (.notSupported [spec.io_type, spec.command, spec.api])) ∧
    run_benchmark env spec fuel
        = ([], .error (.notSupported
            [spec.io_type, spec.command, spec.api])) := by
  simp only [supportedCombos, List.mem_cons, List.not_mem_nil, or_false,
    not_or] at h
  obtain ⟨h1, h2, h3, h4⟩ := h
  have hc : _create_test_fun env spec
      = ([], .error (.notSupported [spec.io_type, spec.command, spec.api])) := by
    simp only [_create_test_fun]
    rw [if_neg h1, if_neg h2, if_neg h3, if_neg h4]
  refine ⟨hc, ?_⟩
  unfold run_benchmark
  simp only [hc]

/-- C2 witness: the combination (network, read, load_dump) is rejected at
construction time with an empty trace. -/
theorem unsupported_combination_fails_witness :
    (["network", "read", "load_dump"] ∉ supportedCombos) ∧
    run_benchmark env0
        ⟨"network", "read", "load_dump", "in.ion", 3, "json", 2, 5, false, ld0⟩ 1
      = ([], .error (.notSupported ["network", "read", "load_dump"])) :=
  ⟨by decide,
    (unsupported_combination_fails env0
      ⟨"network", "read", "load_dump", "in.ion", 3, "json", 2, 5, false, ld0⟩ 1
      (by decide)).2⟩

/-- A (buffer, read, load_dump) configuration over the same environment. -/
def spec2 : BenchmarkSpec :=
  ⟨"buffer", "read", "load_dump", "in.ion", 3, "json", 2, 5, false, ld0⟩

/-- A (file, write, load_dump) configuration over the same environment. -/
def spec3 : BenchmarkSpec :=
  ⟨"file", "write", "load_dump", "in.ion", 3, "json", 2, 5, false, ld0⟩

/-- C3: for (buffer, read, load_dump) the selector reads the input file
into memory exactly once at construction (one open event in the setup
trace), and the returned test function deserializes that buffer on each
call with no file-open event of any kind. -/
theorem buffer_read_reads_file_once (env : Env) (spec : BenchmarkSpec)
    (buf : List Nat)
    (hc : [spec.io_type, spec.command, spec.api]
        = ["buffer", "read", "load_dump"])
    (hf : env.fs spec.input_file = some buf) :
    _create_test_fun env spec
        = ([Event.openFile spec.input_file, Event.closeFile],
            .ok ⟨[Event.loads buf], spec.loader_dumper.loadsResult buf⟩) ∧
    List.countP isOpen [Event.openFile spec.input_file, Event.closeFile]
        = 1 ∧
    ∀ e ∈ [Event.loads buf], isOpen e = false := by
  refine ⟨?_, rfl, ?_⟩
  · simp only [_create_test_fun, if_pos hc, hf]
  · intro e he
    simp only [List.mem_cons, List.not_mem_nil, or_false] at he
    subst he
    rfl

/-- C3 witness: the concrete (buffer, read) construction reads `[1, 2]`
once and the test function only deserializes that buffer. -/
theorem buffer_read_reads_file_once_witness :
    ([spec2.io_type, spec2.command, spec2.api]
        = ["buffer", "read", "load_dump"]) ∧
    (env0.fs spec2.input_file = some [1, 2]) ∧
    _create_test_fun env0 spec2
      = ([Event.openFile "in.ion", Event.closeFile],
          .ok ⟨[Event.loads [1, 2]],
            spec2.loader_dumper.loadsResult [1, 2]⟩) :=
  ⟨rfl, rfl, (buffer_read_reads_file_once env0 spec2 [1, 2] rfl rfl).1⟩

/-- C4: for (file, write, load_dump) the selector performs no setup I/O and
returns a test function that, per call, opens a fresh temporary file —
binary mode exactly when the format is binary or Ion — serializes the data
object into it, and closes (hence discards) it; the close event is present
even when the dump raises, because the call's events do not depend on the
dump outcome. -/
theorem file_write_fresh_temp_per_call (env : Env) (spec : BenchmarkSpec)
    (hc : [spec.io_type, spec.command, spec.api]
        = ["file", "write", "load_dump"]) :
    _create_test_fun env spec
        = ([], .ok ⟨[Event.openTemp (env.format_is_binary spec.format
              || env.format_is_ion spec.format),
            Event.dumpStream spec.data_object, Event.closeTemp],
            spec.loader_dumper.dumpResult spec.data_object⟩) ∧
    Event.closeTemp ∈ [Event.openTemp (env.format_is_binary spec.format
        || env.format_is_ion spec.format),
      Event.dumpStream spec.data_object, Event.closeTemp] := by
  have h1 : ¬([spec.io_type, spec.command, spec.api]
      = ["buffer", "read", "load_dump"]) := by
    rw [hc]
    decide
  have h2 : ¬([spec.io_type, spec.command, spec.api]
      = ["buffer", "write", "load_dump"]) := by
    rw [hc]
    decide
  have h3 : ¬([spec.io_type, spec.command, spec.api]
      = ["file", "read", "load_dump"]) := by
    rw [hc]
    decide
  constructor
  · simp only [_create_test_fun, if_neg h1, if_neg h2, if_neg h3, if_pos hc]
    cases hb : env.format_is_binary spec.format || env.format_is_ion spec.format
    · simp [hb]
    · simp [hb]
  · simp

/-- C4 witness: for a text format the temporary file is opened in text
mode, and the close event is in the per-call trace. -/
theorem file_write_fresh_temp_per_call_witness :
    ([spec3.io_type, spec3.command, spec3.api]
        = ["file", "write", "load_dump"]) ∧
    _create_test_fun env0 spec3
      = ([], .ok ⟨[Event.openTemp false, Event.dumpStream 3, Event.closeTemp],
          spec3.loader_dumper.dumpResult 3⟩) :=
  ⟨rfl, (file_write_fresh_temp_per_call env0 spec3 rfl).1⟩

/-- C5: in every completed run the reported peak memory is `none` exactly
on PyPy and otherwise the traced peak (a natural number, hence
non-negative), measured over exactly one invocation of the test function. -/
theorem peak_memory_usage_reported (env : Env) (spec : BenchmarkSpec)
    (fuel : Nat) (evs : List Event) (res : BenchmarkResult)
    (h : run_benchmark env spec fuel = (evs, .ok res)) :
    res.peak_memory_usage = (if env.pypy then none else some env.peak) ∧
    (∀ p, res.peak_memory_usage = some p → 0 ≤ p) ∧
    ∃ cEvs tf, _create_test_fun env spec = (cEvs, .ok tf) ∧
      (env.pypy = false →
        (memory_phase env tf).1.count Event.invoke = 1) := by
  obtain ⟨cEvs, tf, mEvs, peak, tEvs, b, ts, hc, hm, ht, hevs, hres⟩ :=
    run_benchmark_ok_inv env spec fuel evs res h
  obtain ⟨hpeak, htrace⟩ := memory_phase_ok_inv env tf mEvs peak hm
  subst hres
  refine ⟨hpeak, fun p _ => Nat.zero_le p, cEvs, tf, hc, ?_⟩
  intro hp
  have hm1 : (memory_phase env tf).1 = mEvs := by rw [hm]
  rw [hm1, htrace hp]
  have hni : Event.invoke ∉ tf.events :=
    invoke_notin_of_benign tf.events
      (selector_events_benign env spec cEvs tf hc)
  have hz : tf.events.count Event.invoke = 0 := List.count_eq_zero.mpr hni
  simp only [callEvents, List.count_append, List.count_cons_self, hz]
  rfl

/-- C5 witness: the concrete run reports the traced peak of 7 bytes. -/
theorem peak_memory_usage_reported_witness :
    (run_benchmark env0 spec0 1 = (evs0, .ok res0)) ∧
    res0.peak_memory_usage = some env0.peak ∧
    (res0.peak_memory_usage = some 7 → 0 ≤ 7) :=
  ⟨rfl, (peak_memory_usage_reported env0 spec0 1 evs0 res0 rfl).1,
    (peak_memory_usage_reported env0 spec0 1 evs0 res0 rfl).2.1 7⟩

/-- C6: when the traced invocation returns normally the memory-profiling
trace is exactly: disable gc, start tracing, one invocation, stop tracing,
re-enable gc — with the peak read back as the result — and the test
function is invoked exactly once. -/
theorem memory_profile_step_order (env : Env) (tf : TestFun)
    (hok : tf.result = .ok ()) (hni : Event.invoke ∉ tf.events) :
    _trace_memory_allocation env tf
        = ([Event.gcDisable, Event.traceStart]
            ++ (Event.invoke :: tf.events)
            ++ [Event.traceStop, Event.gcEnable], .ok env.peak) ∧
    (_trace_memory_allocation env tf).1.count Event.invoke = 1 := by
  have h1 : _trace_memory_allocation env tf
      = ([Event.gcDisable, Event.traceStart]
          ++ (Event.invoke :: tf.events)
          ++ [Event.traceStop, Event.gcEnable], .ok env.peak) := by
    unfold _trace_memory_allocation
    simp only [hok]
    rfl
  refine ⟨h1, ?_⟩
  rw [h1]
  have hz : tf.events.count Event.invoke = 0 := List.count_eq_zero.mpr hni
  simp only [List.count_append, List.count_cons_self, hz]
  rfl

/-- C6 witness: the concrete five-step sequence around one invocation. -/
theorem memory_profile_step_order_witness :
    (tf0.result = .ok ()) ∧ (Event.invoke ∉ tf0.events) ∧
    _trace_memory_allocation env0 tf0
      = ([Event.gcDisable, Event.traceStart]
          ++ (Event.invoke :: tf0.events)
          ++ [Event.traceStop, Event.gcEnable], .ok env0.peak) :=
  ⟨rfl, by decide, (memory_profile_step_order env0 tf0 rfl (by decide)).1⟩

/-- A test function whose single invocation raises a serialization
failure. -/
def tfBad : TestFun := ⟨[Event.dumpStream 3], .error .serializationFailure⟩

/-- C7 counterexample: with a raising test function the memory-profiling
sequence does NOT run to completion — tracing is never stopped and the
collector is never re-enabled before the failure propagates. -/
theorem memory_profile_no_cleanup_on_raise_cex :
    tfBad.result = .error .serializationFailure ∧
    Event.traceStop ∉ (_trace_memory_allocation env0 tfBad).1 ∧
    Event.gcEnable ∉ (_trace_memory_allocation env0 tfBad).1 ∧
    (_trace_memory_allocation env0 tfBad).2
        = .error .serializationFailure :=
  ⟨rfl, by decide, by decide, rfl⟩

/-- C7 amended: if the test function raises during the traced invocation,
the failure propagates to the caller immediately — the trace ends with the
raising invocation, so tracing is not stopped and automatic reclamation is
not re-enabled. -/
theorem memory_profile_raise_propagates (env : Env) (tf : TestFun)
    (e : Err) (he : tf.result = .error e) :
    _trace_memory_allocation env tf
        = ([Event.gcDisable, Event.traceStart]
            ++ (Event.invoke :: tf.events), .error e) ∧
    (Event.traceStop ∉ tf.events →
      Event.traceStop ∉ (_trace_memory_allocation env tf).1) ∧
    (Event.gcEnable ∉ tf.events →
      Event.gcEnable ∉ (_trace_memory_allocation env tf).1) := by
  have h1 : _trace_memory_allocation env tf
      = ([Event.gcDisable, Event.traceStart]
          ++ (Event.invoke :: tf.events), .error e) := by
    unfold _trace_memory_allocation
    simp only [he]
    rfl
  refine ⟨h1, ?_, ?_⟩
  · intro hni
    simp only [h1]
    intro hmem
    rcases List.mem_append.mp hmem with h2 | h2
    · simp at h2
    · rcases List.mem_cons.mp h2 with h3 | h3
      · exact Event.noConfusion h3
      · exact hni h3
  · intro hni
    simp only [h1]
    intro hmem
    rcases List.mem_append.mp hmem with h2 | h2
    · simp at h2
    · rcases List.mem_cons.mp h2 with h3 | h3
      · exact Event.noConfusion h3
      · exact hni h3

/-- C7 amended witness: the concrete raising test function. -/
theorem memory_profile_raise_propagates_witness :
    (tfBad.result = .error .serializationFailure) ∧
    _trace_memory_allocation env0 tfBad
      = ([Event.gcDisable, Event.traceStart]
          ++ (Event.invoke :: tfBad.events), .error .serializationFailure) :=
  ⟨rfl,
    (memory_profile_raise_propagates env0 tfBad .serializationFailure rfl).1⟩

/-- C8: the timer setup statement is `gc.disable()` when the configuration
flag is set and `gc.enable()` otherwise, and — because that setup runs at
the start of every timing run — every invocation during warm-up,
calibration and the timed repetitions observes the configured collector
state, whatever the collector state on entry to the timing phase. -/
theorem gc_policy_applied_throughout_timing (env : Env)
    (spec : BenchmarkSpec) (cEvs : List Event) (tf : TestFun) (fuel : Nat)
    (htf : _create_test_fun env spec = (cEvs, .ok tf)) :
    benchSetupEvent spec
        = (if spec.py_gc_disabled then Event.gcDisable else Event.gcEnable) ∧
    ∀ init b, b ∈ gcAt init (timing_phase env spec tf fuel).1 →
      b = !spec.py_gc_disabled := by
  refine ⟨rfl, ?_⟩
  intro init b hb
  have hfree : gcFree tf.events :=
    gcFree_of_benign tf.events (selector_events_benign env spec cEvs tf htf)
  have hsetup : (Timer.mk (benchSetupEvent spec) tf).setupEvent
      = if !spec.py_gc_disabled then Event.gcEnable else Event.gcDisable := by
    cases hgc : spec.py_gc_disabled <;> simp [benchSetupEvent, hgc]
  simp only [timing_phase] at hb
  rcases h1 : timerTimeit env ⟨benchSetupEvent spec, tf⟩ spec.warmups
    with ⟨wEvs, r1⟩
  rcases r1 with e1 | w
  · simp only [h1] at hb
    exact timerTimeit_gcAt env ⟨benchSetupEvent spec, tf⟩ _ hsetup hfree
      spec.warmups init b (by rw [h1]; exact hb)
  · simp only [h1] at hb
    rcases h2 : autorangeLoop env ⟨benchSetupEvent spec, tf⟩ fuel 0
      with ⟨aEvs, r2⟩
    rcases r2 with e2 | nt
    · simp only [h2] at hb
      rcases gcAt_append_mem aEvs wEvs init b hb with hbw | ⟨s2, hba⟩
      · exact timerTimeit_gcAt env ⟨benchSetupEvent spec, tf⟩ _ hsetup hfree
          spec.warmups init b (by rw [h1]; exact hbw)
      · exact autorangeLoop_gcAt env ⟨benchSetupEvent spec, tf⟩ _ hsetup hfree
          fuel 0 s2 b (by rw [h2]; exact hba)
    · rcases nt with ⟨bs, t⟩
      simp only [h2] at hb
      rcases h3 : timerRepeat env ⟨benchSetupEvent spec, tf⟩ spec.iterations bs
        with ⟨rEvs, r3⟩
      rcases r3 with e3 | ts
      · simp only [h3] at hb
        rcases gcAt_append_mem rEvs (wEvs ++ aEvs) init b hb
          with hb12 | ⟨s3, hbr⟩
        · rcases gcAt_append_mem aEvs wEvs init b hb12 with hbw | ⟨s2, hba⟩
          · exact timerTimeit_gcAt env ⟨benchSetupEvent spec, tf⟩ _ hsetup
              hfree spec.warmups init b (by rw [h1]; exact hbw)
          · exact autorangeLoop_gcAt env ⟨benchSetupEvent spec, tf⟩ _ hsetup
              hfree fuel 0 s2 b (by rw [h2]; exact hba)
        · exact timerRepeat_gcAt env ⟨benchSetupEvent spec, tf⟩ _ hsetup
            hfree spec.iterations bs s3 b (by rw [h3]; exact hbr)
      · simp only [h3] at hb
        rcases gcAt_append_mem rEvs (wEvs ++ aEvs) init b hb
          with hb12 | ⟨s3, hbr⟩
        · rcases gcAt_append_mem aEvs wEvs init b hb12 with hbw | ⟨s2, hba⟩
          · exact timerTimeit_gcAt env ⟨benchSetupEvent spec, tf⟩ _ hsetup
              hfree spec.warmups init b (by rw [h1]; exact hbw)
          · exact autorangeLoop_gcAt env ⟨benchSetupEvent spec, tf⟩ _ hsetup
              hfree fuel 0 s2 b (by rw [h2]; exact hba)
        · exact timerRepeat_gcAt env ⟨benchSetupEvent spec, tf⟩ _ hsetup
            hfree spec.iterations bs s3 b (by rw [h3]; exact hbr)

/-- C8 witness: with the flag clear the setup statement enables the
collector and every timed invocation of a concrete run sees it enabled. -/
theorem gc_policy_applied_throughout_timing_witness :
    (_create_test_fun env0 spec0 = ([], .ok tf0)) ∧
    benchSetupEvent spec0 = Event.gcEnable ∧
    (true ∈ gcAt true (timing_phase env0 spec0 tf0 1).1
      → true = !spec0.py_gc_disabled) :=
  ⟨rfl, (gc_policy_applied_throughout_timing env0 spec0 [] tf0 1 rfl).1,
    (gc_policy_applied_throughout_timing env0 spec0 [] tf0 1 rfl).2 true true⟩

/-- The (buffer, write, load_dump) configuration with zero iterations. -/
def spec4 : BenchmarkSpec :=
  ⟨"buffer", "write", "load_dump", "in.ion", 3, "json", 2, 0, false, ld0⟩

/-- C10: with a zero iteration count — and a test function that returns
normally, one invocation taking at least 1 ns, and at least one unit of
calibration fuel — `run_benchmark` completes with empty `timings`, still
calibrates a positive `batch_size`, and still produces the usual
`peak_memory_usage`. -/
theorem zero_iterations_completes (env : Env) (spec : BenchmarkSpec)
    (fuel : Nat) (cEvs : List Event) (tf : TestFun)
    (hit : spec.iterations = 0)
    (htf : _create_test_fun env spec = (cEvs, .ok tf))
    (hok : tf.result = .ok ())
    (hd : 1 ≤ env.d) (hfuel : 1 ≤ fuel) :
    ∃ evs res, run_benchmark env spec fuel = (evs, .ok res) ∧
      res.timings = [] ∧ 1 ≤ res.batch_size ∧
      res.peak_memory_usage = (if env.pypy then none else some env.peak) := by
  cases fuel with
  | zero => omega
  | succ f =>
      rcases hm : memory_phase env tf with ⟨mEvs, rm⟩
      have hm2 := memory_phase_ok_fwd env tf hok
      rw [hm] at hm2
      simp only at hm2
      subst hm2
      rcases hw : timerTimeit env ⟨benchSetupEvent spec, tf⟩ spec.warmups
        with ⟨wEvs, rw1⟩
      have hw2 := timerTimeit_snd_ok env ⟨benchSetupEvent spec, tf⟩ hok
        spec.warmups
      rw [hw] at hw2
      simp only at hw2
      subst hw2
      have ha := autorangeLoop_first env ⟨benchSetupEvent spec, tf⟩ hok hd f 0
      refine ⟨cEvs ++ mEvs
          ++ (wEvs ++ (timerTimeit env ⟨benchSetupEvent spec, tf⟩
                (autorangeNumbers 0)).1 ++ []),
        ⟨[], autorangeNumbers 0,
          if env.pypy then none else some env.peak⟩, ?_, rfl,
        autorangeNumbers_pos 0, rfl⟩
      unfold run_benchmark
      simp only [htf, hm, timing_phase, hw, ha, hit, timerRepeat]

/-- C10 witness: a concrete zero-iteration run completes with empty
timings, batch size 1 and the traced peak. -/
theorem zero_iterations_completes_witness :
    (spec4.iterations = 0) ∧ (tf0.result = .ok ()) ∧ (1 ≤ env0.d) ∧
    ∃ evs res, run_benchmark env0 spec4 1 = (evs, .ok res) ∧
      res.timings = [] ∧ 1 ≤ res.batch_size ∧
      res.peak_memory_usage = (if env0.pypy then none else some env0.peak) :=
  ⟨rfl, rfl, by decide,
    zero_iterations_completes env0 spec4 1 [] tf0 rfl rfl rfl
      (by decide) (by decide)⟩

end BenchmarkRunner
